import Mathlib

/-!
# Verification of the collie staged matrix-factorization models

Shallow embedding of `collie_recs/model/cold_start_matrix_factorization.py`
and `collie_recs/model/hybrid_pretrained_matrix_factorization.py`.

Embedding tables are modelled as row-major matrices over `ℚ` (`List (List ℚ)`),
tensor index-lookups as `List.getD`, and the stateful methods of the two model
classes as explicit state-passing functions on structures whose fields mirror
the attributes of the Python objects.  Methods that can raise return the
post-state paired with an `Option String` holding the raised message (the raise
happens before any mutation in the source, so the returned state is the input
state in that case).  Dropout layers are the identity outside training, so the
forward passes below are the evaluation-mode forward passes.
-/

namespace Collie

/-- A weight matrix: one row per entity id. -/
abbrev Table := List (List ℚ)

/-- Row-lookup of an embedding table at a batch of ids
(`table(ids)` in torch); out-of-range ids are totalized with `[]`. -/
def lookup (table : Table) (ids : List ℕ) : Table :=
  ids.map (fun i => table.getD i [])

/-- The row operation `torch.mul(x, y).sum(axis=1)` applied to one row pair. -/
def dot (x y : List ℚ) : ℚ :=
  (List.zipWith (fun a b => a * b) x y).sum

/-! ## ColdStartModel (`cold_start_matrix_factorization.py`) -/

/-- State of a `ColdStartModel`: the six embedding tables built in
`ColdStartModel._setup_model` (lines 217-258), the immutable item-to-bucket
assignment `hparams.item_buckets`, and the current stage string. -/
structure ColdStartModel where
  stage : String
  item_buckets : List ℕ
  item_bucket_biases : Table
  item_bucket_embeddings : Table
  user_biases : Table
  user_embeddings : Table
  item_biases : Table
  item_embeddings : Table
deriving DecidableEq

/-- The registered stage names (`hparams.stage_list`), from the
`optimizer_config_list` built in `ColdStartModel.__init__` (lines 140-163). -/
def stageList : List String := ["item_buckets", "no_buckets"]

/-- The `item_buckets` validation run by `ColdStartModel.__init__`
(lines 167-189) when `load_model_path is None`, returning the derived
`num_item_buckets` on success.  The checks run in source order: length against
`train.num_items`, minimum value zero, then the coverage check, which the
source performs as `set(item_buckets) != set(range(train.num_users))`. -/
def coldStartInit (item_buckets : List ℕ) (numItems numUsers : ℕ) :
    Except String ℕ :=
  if item_buckets.length ≠ numItems then
    .error "Length of item_buckets must be equal to the number of items in the dataset."
  else if item_buckets.min? ≠ some 0 then
    .error "item_buckets IDs must start at 0."
  else if item_buckets.toFinset ≠ Finset.range numUsers then
    .error "item_buckets must contain every integer between 0 and num_users - 1."
  else
    .ok ((item_buckets.max?.getD 0) + 1)

/-- The spec's notion of a valid item-bucket assignment: 1-dimensional (inherent
to `List`), of length equal to the number of items, nonempty with minimum 0,
and containing every integer in `[0, max]`. -/
def ValidAssignment (item_buckets : List ℕ) (numItems : ℕ) : Prop :=
  item_buckets.length = numItems ∧
  item_buckets.min? = some 0 ∧
  ∀ k : ℕ, k ≤ (item_buckets.max?.getD 0) → k ∈ item_buckets

instance (item_buckets : List ℕ) (numItems : ℕ) :
    Decidable (ValidAssignment item_buckets numItems) := by
  unfold ValidAssignment; infer_instance

/-- Shallow embedding of `ColdStartModel._copy_weights` (lines 193-194):
`new.weight.data.copy_(old.weight.data[buckets])`, i.e. the destination table
becomes the source table gathered along the bucket assignment. -/
def copy_weights (old : Table) (buckets : List ℕ) : Table :=
  buckets.map (fun b => old.getD b [])

/-- The `(source, destination)` table pair before and after one run of
`ColdStartModel._copy_weights`: the source is read, the destination is fully
overwritten with the gathered rows. -/
def copy_weights_state (s : Table × Table) (buckets : List ℕ) : Table × Table :=
  (s.1, copy_weights s.1 buckets)

/-- Shallow embedding of `ColdStartModel.set_stage` (lines 196-215).  Returns
the post-state and the
raised `ValueError` message, if any.  The unregistered-name branch raises
before `self.hparams.stage = stage` runs, so the state is returned unchanged
there; the `item_buckets -> no_buckets` transition first runs `_copy_weights`
on the bias pair and on the embedding pair. -/
def ColdStartModel.set_stage (m : ColdStartModel) (stage : String) :
    ColdStartModel × Option String :=
  if stage ∈ stageList then
    if m.stage = "item_buckets" ∧ stage = "no_buckets" then
      ({ m with
          item_biases := copy_weights m.item_bucket_biases m.item_buckets,
          item_embeddings := copy_weights m.item_bucket_embeddings m.item_buckets,
          stage := stage }, none)
    else
      ({ m with stage := stage }, none)
  else
    (m, some (stage ++ " is not a valid stage, please choose one of " ++ toString stageList))

/-- The `pred_scores` expression of `ColdStartModel.forward` (lines 290-294):
elementwise-product sum of the latent rows, plus both squeezed bias columns. -/
def predScores (user_embeddings item_embeddings user_biases item_biases : Table) :
    List ℚ :=
  List.zipWith (fun s b => s + b)
    (List.zipWith (fun s b => s + b)
      (List.zipWith (fun u i => dot u i) user_embeddings item_embeddings)
      (user_biases.map (fun r => r.getD 0 0)))
    (item_biases.map (fun r => r.getD 0 0))

/-- The forward pass `ColdStartModel.forward` (lines 260-296) in evaluation
mode (dropout is the
identity).  In the `item_buckets` stage item ids are first mapped through the
assignment (`items = self.hparams.item_buckets[items]`); in the `no_buckets`
stage the full item tables are read directly.  Any other stage value leaves
`item_embeddings` unbound in the source (a `NameError`), modelled as `none`. -/
def ColdStartModel.forward (m : ColdStartModel) (users items : List ℕ) :
    Option (List ℚ) :=
  let user_embeddings := lookup m.user_embeddings users
  let user_biases := lookup m.user_biases users
  if m.stage = "item_buckets" then
    let bucketIds := items.map (fun i => m.item_buckets.getD i 0)
    some (predScores user_embeddings (lookup m.item_bucket_embeddings bucketIds)
      user_biases (lookup m.item_bucket_biases bucketIds))
  else if m.stage = "no_buckets" then
    some (predScores user_embeddings (lookup m.item_embeddings items)
      user_biases (lookup m.item_biases items))
  else
    none

/-- The latent row that `forward` reads for item id `i`: the bucket row at
`assignment[i]` in the `item_buckets` stage, the item row otherwise. -/
def ColdStartModel.itemRow (m : ColdStartModel) (i : ℕ) : List ℚ :=
  if m.stage = "item_buckets" then
    m.item_bucket_embeddings.getD (m.item_buckets.getD i 0) []
  else
    m.item_embeddings.getD i []

/-- The bias row that `forward` reads for item id `i`. -/
def ColdStartModel.itemBiasRow (m : ColdStartModel) (i : ℕ) : List ℚ :=
  if m.stage = "item_buckets" then
    m.item_bucket_biases.getD (m.item_buckets.getD i 0) []
  else
    m.item_biases.getD i []

/-- A concrete `ColdStartModel` in the `item_buckets` stage, with the
docstring's assignment `[1, 0, 2, 2, 1]` (5 items, 3 buckets) and the
width-1 bucket latent table `[[9], [8], [7]]`. -/
def exampleColdStart : ColdStartModel :=
  { stage := "item_buckets"
    item_buckets := [1, 0, 2, 2, 1]
    item_bucket_biases := [[5], [6], [7]]
    item_bucket_embeddings := [[9], [8], [7]]
    user_biases := [[0], [0]]
    user_embeddings := [[1], [2]]
    item_biases := [[0], [0], [0], [0], [0]]
    item_embeddings := [[0], [0], [0], [0], [0]] }

/-- The same model after advancing to the `no_buckets` stage name only. -/
def exampleColdStartNB : ColdStartModel :=
  { exampleColdStart with stage := "no_buckets" }

/-- Columnwise `predScores` over looked-up rows equals the per-pair score
formula, one scalar per `(user, item)` pair. -/
theorem predScores_map (fE gE fB gB : ℕ → List ℚ) (us vs : List ℕ) :
    predScores (us.map fE) (vs.map gE) (us.map fB) (vs.map gB) =
      (us.zip vs).map (fun p =>
        dot (fE p.1) (gE p.2) + (fB p.1).getD 0 0 + (gB p.2).getD 0 0) := by
  induction us generalizing vs with
  | nil => simp [predScores]
  | cons u us ih =>
    cases vs with
    | nil => simp [predScores]
    | cons v vs =>
      simp only [List.map_cons, predScores, List.zipWith_cons_cons, List.zip_cons_cons]
      exact congrArg _ (ih vs)

/-- C1: the claim says construction (with `load_model_path = None`) succeeds
exactly when the item-bucket assignment is valid (1-d, right length, minimum 0,
dense on `[0, max]`).  The code instead compares the set of bucket ids with
`set(range(train.num_users))` (line 180), so the docstring's own valid
assignment `[1, 0, 2, 2, 1]` (5 items, 3 buckets) is rejected with a
`ValueError` for a dataset with 5 users. -/
theorem coldStartInit_rejects_valid_assignment :
    ValidAssignment [1, 0, 2, 2, 1] 5 ∧
    coldStartInit [1, 0, 2, 2, 1] 5 5 =
      .error "item_buckets must contain every integer between 0 and num_users - 1." := by
  constructor
  · decide
  · rfl

/-- C2: immediately after the `item_buckets -> no_buckets` transition, item row
`i` of the item latent table equals row `assignment[i]` of the bucket latent
table, and likewise for the bias tables; no error is raised. -/
theorem set_stage_expands_buckets (m : ColdStartModel)
    (h : m.stage = "item_buckets") (i : ℕ) (hi : i < m.item_buckets.length) :
    (m.set_stage "no_buckets").2 = none ∧
    (m.set_stage "no_buckets").1.item_embeddings.getD i [] =
      m.item_bucket_embeddings.getD (m.item_buckets.getD i 0) [] ∧
    (m.set_stage "no_buckets").1.item_biases.getD i [] =
      m.item_bucket_biases.getD (m.item_buckets.getD i 0) [] := by
  have hmem : "no_buckets" ∈ stageList := by decide
  have hcond : m.stage = "item_buckets" ∧ "no_buckets" = "no_buckets" := ⟨h, rfl⟩
  unfold ColdStartModel.set_stage
  rw [if_pos hmem, if_pos hcond]
  refine ⟨rfl, ?_, ?_⟩ <;>
  · show (copy_weights _ m.item_buckets).getD i [] = _
    unfold copy_weights
    rw [List.getD_eq_getElem _ _ (by simpa using hi), List.getElem_map,
      List.getD_eq_getElem _ _ hi]

/-- C2 witness: expanding the width-1 bucket latent table `[[9], [8], [7]]`
under assignment `[1, 0, 2, 2, 1]` yields the item table
`[[8], [9], [7], [7], [8]]`. -/
theorem set_stage_expands_buckets_witness :
    exampleColdStart.stage = "item_buckets" ∧
    0 < exampleColdStart.item_buckets.length ∧
    (exampleColdStart.set_stage "no_buckets").2 = none ∧
    (exampleColdStart.set_stage "no_buckets").1.item_embeddings.getD 0 [] =
      exampleColdStart.item_bucket_embeddings.getD
        (exampleColdStart.item_buckets.getD 0 0) [] ∧
    (exampleColdStart.set_stage "no_buckets").1.item_biases.getD 0 [] =
      exampleColdStart.item_bucket_biases.getD
        (exampleColdStart.item_buckets.getD 0 0) [] ∧
    (exampleColdStart.set_stage "no_buckets").1.item_embeddings =
      [[8], [9], [7], [7], [8]] :=
  ⟨rfl, by decide, (set_stage_expands_buckets exampleColdStart rfl 0 (by decide)).1,
    (set_stage_expands_buckets exampleColdStart rfl 0 (by decide)).2.1,
    (set_stage_expands_buckets exampleColdStart rfl 0 (by decide)).2.2, by decide⟩

/-- C3: the bucket-expansion copy `_copy_weights` is idempotent on the
`(source, destination)` pair, never
mutates the source table, and is a full overwrite (the prior destination state
is irrelevant). -/
theorem copy_weights_idempotent (s : Table × Table) (buckets : List ℕ)
    (t d d' : Table) :
    copy_weights_state (copy_weights_state s buckets) buckets =
      copy_weights_state s buckets ∧
    (copy_weights_state s buckets).1 = s.1 ∧
    copy_weights_state (t, d) buckets = copy_weights_state (t, d') buckets :=
  ⟨rfl, rfl, rfl⟩

/-- C5: calling `set_stage` with an unregistered name raises a `ValueError`
whose
message lists the registered stage names and leaves the model (in particular
the current stage) unchanged; with any registered name it raises nothing and
sets the current stage to the target. -/
theorem set_stage_invalid_name (m : ColdStartModel) (s : String) :
    (s ∉ stageList →
      m.set_stage s =
        (m, some (s ++ " is not a valid stage, please choose one of " ++
          toString stageList))) ∧
    (s ∈ stageList → (m.set_stage s).2 = none ∧ (m.set_stage s).1.stage = s) := by
  constructor
  · intro hs
    unfold ColdStartModel.set_stage
    rw [if_neg hs]
  · intro hs
    unfold ColdStartModel.set_stage
    rw [if_pos hs]
    by_cases hc : m.stage = "item_buckets" ∧ s = "no_buckets"
    · rw [if_pos hc]
      exact ⟨rfl, rfl⟩
    · rw [if_neg hc]
      exact ⟨rfl, rfl⟩

/-- C5 witness: the unregistered name `"bogus"` is rejected with the listing
message and the model is unchanged; the registered name `"no_buckets"`
advances the stage. -/
theorem set_stage_invalid_name_witness :
    ("bogus" ∉ stageList ∧
      exampleColdStart.set_stage "bogus" =
        (exampleColdStart, some ("bogus" ++
          " is not a valid stage, please choose one of " ++ toString stageList))) ∧
    ("no_buckets" ∈ stageList ∧
      (exampleColdStart.set_stage "no_buckets").2 = none ∧
      (exampleColdStart.set_stage "no_buckets").1.stage = "no_buckets") :=
  ⟨⟨by decide, (set_stage_invalid_name exampleColdStart "bogus").1 (by decide)⟩,
    ⟨by decide, (set_stage_invalid_name exampleColdStart "no_buckets").2 (by decide)⟩⟩

/-- C6: for equal-length id lists, `forward` returns one scalar per pair: the
sum over the latent dimension of the product of user and item latent rows plus
both biases, where the item rows are read through the bucket assignment in the
`item_buckets` stage and directly in the `no_buckets` stage. -/
theorem forward_scores (m : ColdStartModel) (users items : List ℕ)
    (hlen : users.length = items.length)
    (hstage : m.stage = "item_buckets" ∨ m.stage = "no_buckets") :
    m.forward users items =
      some ((users.zip items).map (fun p =>
        dot (m.user_embeddings.getD p.1 []) (m.itemRow p.2) +
          (m.user_biases.getD p.1 []).getD 0 0 +
          (m.itemBiasRow p.2).getD 0 0)) := by
  rcases hstage with h | h
  · simp only [ColdStartModel.forward, ColdStartModel.itemRow,
      ColdStartModel.itemBiasRow, h, if_true, reduceIte, lookup, List.map_map]
    rw [predScores_map]
    rfl
  · have e1 : (m.stage = "item_buckets") = False := by
      rw [h]
      simp
    have e2 : (m.stage = "no_buckets") = True := eq_true h
    simp only [ColdStartModel.forward, ColdStartModel.itemRow,
      ColdStartModel.itemBiasRow, e1, e2, if_true, if_false, lookup]
    rw [predScores_map]

/-- C6 witness: concrete evaluation in the `item_buckets` stage; user ids
`[0, 1]` and item ids `[2, 0]` score `[14, 22]` through the bucket tables. -/
theorem forward_scores_witness :
    ([0, 1] : List ℕ).length = ([2, 0] : List ℕ).length ∧
    (exampleColdStart.stage = "item_buckets" ∨
      exampleColdStart.stage = "no_buckets") ∧
    exampleColdStart.forward [0, 1] [2, 0] =
      some ((([0, 1] : List ℕ).zip [2, 0]).map (fun p =>
        dot (exampleColdStart.user_embeddings.getD p.1 [])
            (exampleColdStart.itemRow p.2) +
          (exampleColdStart.user_biases.getD p.1 []).getD 0 0 +
          (exampleColdStart.itemBiasRow p.2).getD 0 0)) ∧
    exampleColdStart.forward [0, 1] [2, 0] = some [14, 22] := by
  refine ⟨rfl, Or.inl rfl,
    forward_scores exampleColdStart [0, 1] [2, 0] rfl (Or.inl rfl), ?_⟩
  rw [forward_scores exampleColdStart [0, 1] [2, 0] rfl (Or.inl rfl)]
  norm_num [exampleColdStart, ColdStartModel.itemRow, ColdStartModel.itemBiasRow, dot]

/-- C10: calling `set_stage "item_buckets"` while the current stage is
`no_buckets` raises no error and only sets the stage name back: no weights are
copied in either direction and every embedding table is unchanged. -/
theorem set_stage_reverse_transition (m : ColdStartModel)
    (h : m.stage = "no_buckets") :
    m.set_stage "item_buckets" = ({ m with stage := "item_buckets" }, none) ∧
    (m.set_stage "item_buckets").1.item_embeddings = m.item_embeddings ∧
    (m.set_stage "item_buckets").1.item_biases = m.item_biases ∧
    (m.set_stage "item_buckets").1.item_bucket_embeddings =
      m.item_bucket_embeddings ∧
    (m.set_stage "item_buckets").1.item_bucket_biases = m.item_bucket_biases ∧
    (m.set_stage "item_buckets").1.user_embeddings = m.user_embeddings ∧
    (m.set_stage "item_buckets").1.user_biases = m.user_biases := by
  have hmem : "item_buckets" ∈ stageList := by decide
  have hcond : ¬(m.stage = "item_buckets" ∧ "item_buckets" = "no_buckets") := by
    rintro ⟨_, hh⟩
    exact absurd hh (by decide)
  unfold ColdStartModel.set_stage
  rw [if_pos hmem, if_neg hcond]
  exact ⟨rfl, rfl, rfl, rfl, rfl, rfl, rfl⟩

/-- C10 witness: the reverse transition on the concrete model. -/
theorem set_stage_reverse_transition_witness :
    exampleColdStartNB.stage = "no_buckets" ∧
    exampleColdStartNB.set_stage "item_buckets" =
      ({ exampleColdStartNB with stage := "item_buckets" }, none) :=
  ⟨rfl, (set_stage_reverse_transition exampleColdStartNB rfl).1⟩

/-! ## HybridPretrainedModel (`hybrid_pretrained_matrix_factorization.py`)

State-dictionary keys are the real parameter names of the Python module
(`embeddings.0.weight`, `metadata_layer_0.weight`, `_trained_model....`, ...),
because `save_model` filters the state dictionary by the substring test
`'_trained_model' not in k` on those names. -/

/-- The decimal digit characters of `n`, most significant first
(how `'metadata_layer_{0}'.format(i)` renders the index). -/
def natChars (n : ℕ) : List Char :=
  if _h : n < 10 then [Char.ofNat (48 + n)]
  else natChars (n / 10) ++ [Char.ofNat (48 + n % 10)]
decreasing_by exact Nat.div_lt_self (by omega) (by omega)

/-- Decimal rendering of a natural number as a string. -/
def natStr (n : ℕ) : String := ⟨natChars n⟩

/-- Test whether `pat` is a leading segment of `l` (characterwise). -/
def startsWithL : List Char → List Char → Bool
  | [], _ => true
  | _ :: _, [] => false
  | p :: ps, c :: cs => p == c && startsWithL ps cs

/-- Python's substring test `pat in l` on character lists. -/
def substrL (pat : List Char) : List Char → Bool
  | [] => pat.isEmpty
  | c :: cs => startsWithL pat (c :: cs) || substrL pat cs

/-- The test `'_trained_model' in k` used by `save_model` (lines 352-357). -/
def containsTrainedModel (k : String) : Bool :=
  substrL "_trained_model".toList k.toList

/-- Whether the character list contains an underscore immediately followed by a
`t` — a necessary condition for containing `"_trained_model"`. -/
def hasPair : List Char → Bool
  | [] => false
  | [_] => false
  | a :: b :: rest => (a == '_' && b == 't') || hasPair (b :: rest)

/-- A single linear layer (`nn.Linear`): `weight` has one row per output
feature, `bias` one entry per output feature. -/
structure Linear where
  weight : List (List ℚ)
  bias : List ℚ
deriving DecidableEq, Inhabited

/-- Application of a linear layer (`nn.Linear.__call__`): each output is the
dot product of a weight row with
the input plus the bias entry. -/
def Linear.apply (l : Linear) (x : List ℚ) : List ℚ :=
  List.zipWith (fun row b => dot row x + b) l.weight l.bias

/-- The activation `F.leaky_relu` with the default negative slope `0.01`. -/
def leaky_relu (x : ℚ) : ℚ :=
  if 0 ≤ x then x else (1 / 100) * x

/-- A stack of linear layers, each followed by `leaky_relu` and (evaluation
mode) dropout, applied in order. -/
def mlp (ls : List Linear) (x : List ℚ) : List ℚ :=
  ls.foldl (fun acc l => (l.apply acc).map leaky_relu) x

/-- A parameter tensor as stored in a state dictionary: a `weight` matrix or a
`bias` vector. -/
inductive Tensor where
  | mat : List (List ℚ) → Tensor
  | vec : List ℚ → Tensor
deriving DecidableEq

/-- An ordered parameter-name-to-value mapping (`state_dict()`). -/
abbrev StateDict := List (String × Tensor)

/-- The hyperparameters `save_model` persists so that the architecture can be
rebuilt on load without the original pretrained model (`_setup_model` lines
212-216 plus the constructor arguments). -/
structure Hparams where
  user_num_embeddings : ℕ
  user_embeddings_dim : ℕ
  item_num_embeddings : ℕ
  item_embeddings_dim : ℕ
  metadata_layers_dims : Option (List ℕ)
  combined_layers_dims : List ℕ
  item_metadata_num_cols : ℕ
  dropout_p : ℚ
deriving DecidableEq

/-- The embedding tables of the source `MatrixFactorizationModel` as they
appear (prefixed) in the hybrid model's state dictionary when
`self._trained_model` is registered as a submodule. -/
structure MFParams where
  user_biases : Table
  user_embeddings : Table
  item_biases : Table
  item_embeddings : Table
deriving DecidableEq

/-- State of a `HybridPretrainedModel`: the deep-copied borrowed embedding
tables with their gradient-tracking flags (`self.embeddings`,
`_setup_model` lines 202-210), the metadata matrix, the two layer stacks, the
hyperparameter record, and the registered `_trained_model` submodule (kept by
`_setup_model` line 196 when constructing from a pretrained model, `none` when
loading from disk). -/
structure HybridPretrainedModel where
  hparams : Hparams
  item_metadata : Table
  embeddings_0_weight : Table
  embeddings_1_weight : Table
  embeddings_0_requires_grad : Bool
  embeddings_1_requires_grad : Bool
  metadata_layers : Option (List Linear)
  combined_layers : List Linear
  trained_model : Option MFParams
deriving DecidableEq

/-- State-dictionary entries contributed by the registered `_trained_model`
submodule (a `MatrixFactorizationModel` with four embedding tables). -/
def mfEntries (p : MFParams) : StateDict :=
  [("_trained_model.user_biases.weight", Tensor.mat p.user_biases),
   ("_trained_model.user_embeddings.weight", Tensor.mat p.user_embeddings),
   ("_trained_model.item_biases.weight", Tensor.mat p.item_biases),
   ("_trained_model.item_embeddings.weight", Tensor.mat p.item_embeddings)]

/-- State-dictionary entries of an indexed stack of linear layers registered
via `add_module` with names built like `'metadata_layer_{0}'.format(i)`,
starting at index `i`. -/
def layerEntriesFrom (pre : String) (i : ℕ) : List Linear → StateDict
  | [] => []
  | l :: ls =>
    (pre ++ natStr i ++ ".weight", Tensor.mat l.weight) ::
    (pre ++ natStr i ++ ".bias", Tensor.vec l.bias) ::
    layerEntriesFrom pre (i + 1) ls

/-- The parameter names of `n` indexed linear layers, starting at index `i`. -/
def layerKeysFrom (pre : String) (i : ℕ) : ℕ → List String
  | 0 => []
  | n + 1 =>
    (pre ++ natStr i ++ ".weight") :: (pre ++ natStr i ++ ".bias") ::
    layerKeysFrom pre (i + 1) n

/-- The parameter values of a stack of linear layers, in state-dict order. -/
def layerValues : List Linear → List Tensor
  | [] => []
  | l :: ls => Tensor.mat l.weight :: Tensor.vec l.bias :: layerValues ls

/-- The mapping `self.state_dict()` of a `HybridPretrainedModel`, in module
registration
order: the `_trained_model` submodule (registered first in `_setup_model`),
then `self.embeddings`, then the metadata layers, then the combined layers. -/
def hybridStateDict (m : HybridPretrainedModel) : StateDict :=
  (match m.trained_model with
    | some p => mfEntries p
    | none => []) ++
  [("embeddings.0.weight", Tensor.mat m.embeddings_0_weight),
   ("embeddings.1.weight", Tensor.mat m.embeddings_1_weight)] ++
  (match m.metadata_layers with
    | some ls => layerEntriesFrom "metadata_layer_" 0 ls
    | none => []) ++
  layerEntriesFrom "combined_layer_" 0 m.combined_layers

/-- The state-dictionary filter of `save_model` (lines 350-358): keep, in
order, exactly the entries whose key does not contain `_trained_model`. -/
def savedStateDict (sd : StateDict) : StateDict :=
  sd.filter (fun kv => !(containsTrainedModel kv.1))

/-- The persisted payload of a save: `metadata.pkl` (the metadata blob) plus
`model.pth` = filtered state dictionary and hyperparameter record. -/
structure SavedModel where
  metadataPkl : Table
  state_dict : StateDict
  hparams : Hparams
deriving DecidableEq

/-- The data written by `HybridPretrainedModel.save_model` (lines 348-361). -/
def HybridPretrainedModel.save_model_payload (m : HybridPretrainedModel) :
    SavedModel :=
  { metadataPkl := m.item_metadata
    state_dict := savedStateDict (hybridStateDict m)
    hparams := m.hparams }

/-- The parameter names a freshly rebuilt architecture owns, in registration
order; a strict `load_state_dict` succeeds exactly when the persisted mapping
carries these names. -/
def expectedKeys (h : Hparams) : List String :=
  ["embeddings.0.weight", "embeddings.1.weight"] ++
  (match h.metadata_layers_dims with
    | some dims => layerKeysFrom "metadata_layer_" 0 dims.length
    | none => []) ++
  layerKeysFrom "combined_layer_" 0 (h.combined_layers_dims.length + 1)

/-- Read `n` linear layers (weight matrix then bias vector each) off the front
of a value list. -/
def readLayers : ℕ → List Tensor → Option (List Linear × List Tensor)
  | 0, ts => some ([], ts)
  | n + 1, Tensor.mat w :: Tensor.vec b :: ts =>
    (match readLayers n ts with
      | some (ls, rest) => some ({ weight := w, bias := b } :: ls, rest)
      | none => none)
  | _ + 1, _ => none

/-- Modelled from the spec: `BasePipeline._load_model_init_helper` (called from
`HybridPretrainedModel._load_model_init_helper`, lines 182-185, but itself not
under `src/`) restores the hyperparameter record from `model.pth` and
overwrites the parameters of the rebuilt architecture from the persisted
mapping by strict name matching; the dummy-embedding reconstruction and layer
rebuild at the recorded shapes follow `_setup_model`'s load branch (lines
217-257), which leaves the fresh embedding tables with gradient tracking
enabled and registers no `_trained_model` submodule.  The metadata blob is read
back from `metadata.pkl` (line 183). -/
def load_model (sv : SavedModel) : Option HybridPretrainedModel :=
  if sv.state_dict.map Prod.fst = expectedKeys sv.hparams then
    match sv.state_dict.map Prod.snd with
    | Tensor.mat uw :: Tensor.mat iw :: rest =>
      (match readLayers (match sv.hparams.metadata_layers_dims with
          | some dims => dims.length
          | none => 0) rest with
        | some (mls, rest2) =>
          (match readLayers (sv.hparams.combined_layers_dims.length + 1) rest2 with
            | some (cls, []) =>
              some { hparams := sv.hparams
                     item_metadata := sv.metadataPkl
                     embeddings_0_weight := uw
                     embeddings_1_weight := iw
                     embeddings_0_requires_grad := true
                     embeddings_1_requires_grad := true
                     metadata_layers :=
                       match sv.hparams.metadata_layers_dims with
                       | some _ => some mls
                       | none => none
                     combined_layers := cls
                     trained_model := none }
            | _ => none)
        | none => none)
    | _ => none
  else none

/-- The forward pass `HybridPretrainedModel.forward` (lines 259-298) in
evaluation mode
(dropout is the identity): gather metadata rows for the items, optionally pass
them through the metadata layers (`leaky_relu` after each linear layer),
concatenate user latent, item latent and metadata embedding per pair, pass
through all but the last combined layer with `leaky_relu`, and apply the final
width-1 linear layer with no activation. -/
def HybridPretrainedModel.forward (m : HybridPretrainedModel)
    (users items : List ℕ) : List ℚ :=
  let metadataRows := items.map (fun i => m.item_metadata.getD i [])
  let metadata_output :=
    match m.metadata_layers with
    | none => metadataRows
    | some ls => metadataRows.map (fun row => mlp ls row)
  let combined_output := List.zipWith3 (fun u i md => u ++ i ++ md)
    (lookup m.embeddings_0_weight users)
    (lookup m.embeddings_1_weight items)
    metadata_output
  combined_output.map (fun row =>
    ((m.combined_layers.getLast?.getD default).apply
      (mlp m.combined_layers.dropLast row)).getD 0 0)

/-- Shallow embedding of `HybridPretrainedModel.freeze_embeddings` (lines
307-310): clear the
gradient-tracking flag on both borrowed embedding tables. -/
def HybridPretrainedModel.freeze_embeddings (m : HybridPretrainedModel) :
    HybridPretrainedModel :=
  { m with embeddings_0_requires_grad := false, embeddings_1_requires_grad := false }

/-- Shallow embedding of `HybridPretrainedModel.unfreeze_embeddings` (lines
312-315): set the
gradient-tracking flag on both borrowed embedding tables. -/
def HybridPretrainedModel.unfreeze_embeddings (m : HybridPretrainedModel) :
    HybridPretrainedModel :=
  { m with embeddings_0_requires_grad := true, embeddings_1_requires_grad := true }

/-- The save destination directory as the save path sees it: whether the path
exists and which file names it holds. -/
structure FileSystem where
  pathExists : Bool
  files : List String
deriving DecidableEq

/-- Writing a file into a directory: contents are replaced, the name is added
if absent. -/
def writeFile (files : List String) (name : String) : List String :=
  if name ∈ files then files else files ++ [name]

/-- The filesystem effect of `HybridPretrainedModel.save_model` (lines
341-361): raise a `ValueError` — before anything is written — when the path
exists, is non-empty and `overwrite` is `False`; otherwise `mkdir` the path and
write `metadata.pkl` and `model.pth`.  Returns the post-state and the raised
message, if any. -/
def save_model_fs (fs : FileSystem) (overwrite : Bool) :
    FileSystem × Option String :=
  if fs.pathExists && !fs.files.isEmpty && !overwrite then
    (fs, some "Data exists in path and overwrite is False.")
  else
    ({ pathExists := true,
       files := writeFile (writeFile fs.files "metadata.pkl") "model.pth" }, none)

/-- The spec's shape constraint tying a model's layer stacks to its recorded
hyperparameters: the metadata stack has one layer per recorded metadata
dimension (or is absent together with the record), and the combined stack has
one layer per recorded combined dimension plus the final width-1 layer. -/
def WellFormed (m : HybridPretrainedModel) : Prop :=
  m.metadata_layers.map List.length = m.hparams.metadata_layers_dims.map List.length ∧
  m.combined_layers.length = m.hparams.combined_layers_dims.length + 1

instance (m : HybridPretrainedModel) : Decidable (WellFormed m) := by
  unfold WellFormed; infer_instance

/-! ### Layer-name keys never contain `_trained_model` -/

theorem hasPair_cons_of (c : Char) (l : List Char) (h : hasPair l = true) :
    hasPair (c :: l) = true := by
  cases l with
  | nil => simp [hasPair] at h
  | cons b rest => simp [hasPair, h]

theorem substrL_pat_hasPair (pr l : List Char)
    (h : substrL ('_' :: 't' :: pr) l = true) : hasPair l = true := by
  induction l with
  | nil => simp [substrL] at h
  | cons c cs ih =>
    simp only [substrL, Bool.or_eq_true] at h
    rcases h with h | h
    · simp only [startsWithL, Bool.and_eq_true, beq_iff_eq] at h
      obtain ⟨hc, h2⟩ := h
      cases cs with
      | nil => simp [startsWithL] at h2
      | cons d ds =>
        simp only [startsWithL, Bool.and_eq_true, beq_iff_eq] at h2
        obtain ⟨hd, _⟩ := h2
        subst hc
        subst hd
        simp [hasPair]
    · exact hasPair_cons_of c cs (ih h)

theorem hasPair_append (l₁ l₂ : List Char) (h₁ : hasPair l₁ = false)
    (h₂ : hasPair l₂ = false)
    (hj : ∀ a b, l₁.getLast? = some a → l₂.head? = some b →
      (a == '_' && b == 't') = false) :
    hasPair (l₁ ++ l₂) = false := by
  induction l₁ with
  | nil => simpa using h₂
  | cons a l₁ ih =>
    cases l₁ with
    | nil =>
      cases l₂ with
      | nil => rfl
      | cons b l₂' =>
        have hab : (a == '_' && b == 't') = false := hj a b rfl rfl
        simpa [hasPair, hab] using h₂
    | cons c l₁' =>
      have h₁' : hasPair (c :: l₁') = false := by
        simp only [hasPair, Bool.or_eq_false_iff] at h₁
        exact h₁.2
      have hac : (a == '_' && c == 't') = false := by
        simp only [hasPair, Bool.or_eq_false_iff] at h₁
        exact h₁.1
      have hj' : ∀ x y, (c :: l₁').getLast? = some x → l₂.head? = some y →
          (x == '_' && y == 't') = false := by
        intro x y hx hy
        exact hj x y (by rw [List.getLast?_cons_cons]; exact hx) hy
      have htail := ih h₁' hj'
      simpa [hasPair, hac] using htail

theorem hasPair_digits (l : List Char) (h : ∀ c ∈ l, c.isDigit = true) :
    hasPair l = false := by
  induction l with
  | nil => rfl
  | cons a l ih =>
    cases l with
    | nil => rfl
    | cons b r =>
      have ha : a.isDigit = true := h a (by simp)
      have hd : ∀ c ∈ b :: r, c.isDigit = true := fun c hc => h c (by simp [hc])
      have hab : (a == '_' && b == 't') = false := by
        cases hp : (a == '_') with
        | false => simp [hp]
        | true =>
          have hau : a = '_' := by simpa using hp
          rw [hau] at ha
          simp at ha
      simp [hasPair, hab, ih hd]

theorem natChars_digits (n : ℕ) : ∀ c ∈ natChars n, c.isDigit = true := by
  induction n using Nat.strong_induction_on with
  | _ n ih =>
    rw [natChars]
    split
    · intro c hc
      simp only [List.mem_singleton] at hc
      subst hc
      rename_i hlt
      interval_cases n <;> decide
    · intro c hc
      simp only [List.mem_append, List.mem_singleton] at hc
      rcases hc with hc | hc
      · rename_i hge
        exact ih (n / 10) (Nat.div_lt_self (by omega) (by omega)) c hc
      · subst hc
        have hm : n % 10 < 10 := Nat.mod_lt _ (by omega)
        set k := n % 10 with hk
        interval_cases k <;> decide

theorem natChars_ne_nil (n : ℕ) : natChars n ≠ [] := by
  rw [natChars]
  split
  · simp
  · simp

/-- Any key of the form `pre ++ natStr i ++ suf` with underscore-`t`-free
`pre`/`suf` and a suffix not beginning with `t` fails the `_trained_model`
substring test. -/
theorem containsTrainedModel_key (pre suf : String) (i : ℕ)
    (hpre : hasPair pre.toList = false) (hsuf : hasPair suf.toList = false)
    (hsuf0 : suf.toList.head? ≠ some 't') :
    containsTrainedModel (pre ++ natStr i ++ suf) = false := by
  have hk : (pre ++ natStr i ++ suf).toList =
      pre.toList ++ (natChars i ++ suf.toList) := by
    cases pre
    cases suf
    simp [natStr, String.toList]
  have hD : hasPair (natChars i ++ suf.toList) = false := by
    apply hasPair_append _ _ (hasPair_digits _ (natChars_digits i)) hsuf
    intro a b _ hb
    have hbt : (b == 't') = false := by
      cases e : (b == 't') with
      | false => rfl
      | true =>
        have : b = 't' := by simpa using e
        rw [this] at hb
        exact absurd hb hsuf0
    cases (a == '_') <;> simp [hbt]
  have hAll : hasPair ((pre ++ natStr i ++ suf).toList) = false := by
    rw [hk]
    apply hasPair_append _ _ hpre hD
    intro a b _ hb
    have hbd : b.isDigit = true := by
      cases e : natChars i with
      | nil => exact absurd e (natChars_ne_nil i)
      | cons c cs =>
        rw [e] at hb
        simp only [List.cons_append, List.head?_cons, Option.some.injEq] at hb
        subst hb
        exact natChars_digits i c (by simp [e])
    have hbt : (b == 't') = false := by
      cases e : (b == 't') with
      | false => rfl
      | true =>
        have hb' : b = 't' := by simpa using e
        rw [hb'] at hbd
        simp at hbd
    cases (a == '_') <;> simp [hbt]
  cases hc : containsTrainedModel (pre ++ natStr i ++ suf) with
  | false => rfl
  | true =>
    exfalso
    unfold containsTrainedModel at hc
    have hpat : "_trained_model".toList = '_' :: 't' :: "rained_model".toList := by
      decide
    rw [hpat] at hc
    have := substrL_pat_hasPair _ _ hc
    rw [hAll] at this
    exact absurd this (by simp)

/-- The metadata-layer parameter names pass the save filter. -/
theorem metaKeys_not_trained (j : ℕ) :
    containsTrainedModel ("metadata_layer_" ++ natStr j ++ ".weight") = false ∧
    containsTrainedModel ("metadata_layer_" ++ natStr j ++ ".bias") = false :=
  ⟨containsTrainedModel_key _ _ j (by decide) (by decide) (by decide),
   containsTrainedModel_key _ _ j (by decide) (by decide) (by decide)⟩

/-- The combined-layer parameter names pass the save filter. -/
theorem combKeys_not_trained (j : ℕ) :
    containsTrainedModel ("combined_layer_" ++ natStr j ++ ".weight") = false ∧
    containsTrainedModel ("combined_layer_" ++ natStr j ++ ".bias") = false :=
  ⟨containsTrainedModel_key _ _ j (by decide) (by decide) (by decide),
   containsTrainedModel_key _ _ j (by decide) (by decide) (by decide)⟩

/-- Every `_trained_model` submodule entry fails the save filter. -/
theorem filter_mfEntries (p : MFParams) :
    (mfEntries p).filter (fun kv => !(containsTrainedModel kv.1)) = [] := by
  have e1 : containsTrainedModel "_trained_model.user_biases.weight" = true := by
    decide
  have e2 : containsTrainedModel "_trained_model.user_embeddings.weight" = true := by
    decide
  have e3 : containsTrainedModel "_trained_model.item_biases.weight" = true := by
    decide
  have e4 : containsTrainedModel "_trained_model.item_embeddings.weight" = true := by
    decide
  simp [mfEntries, e1, e2, e3, e4]

/-- The save filter keeps every indexed-layer entry. -/
theorem filter_layerEntriesFrom (pre : String) (ls : List Linear)
    (hkey : ∀ j, containsTrainedModel (pre ++ natStr j ++ ".weight") = false ∧
      containsTrainedModel (pre ++ natStr j ++ ".bias") = false) :
    ∀ i, (layerEntriesFrom pre i ls).filter (fun kv => !(containsTrainedModel kv.1)) =
      layerEntriesFrom pre i ls := by
  induction ls with
  | nil => intro i; rfl
  | cons l ls ih =>
    intro i
    simp [layerEntriesFrom, List.filter_cons, (hkey i).1, (hkey i).2, ih (i + 1)]

theorem layerEntriesFrom_keys (pre : String) (ls : List Linear) : ∀ i,
    (layerEntriesFrom pre i ls).map Prod.fst = layerKeysFrom pre i ls.length := by
  induction ls with
  | nil => intro i; rfl
  | cons l ls ih =>
    intro i
    simp [layerEntriesFrom, layerKeysFrom, ih (i + 1)]

theorem layerEntriesFrom_values (pre : String) (ls : List Linear) : ∀ i,
    (layerEntriesFrom pre i ls).map Prod.snd = layerValues ls := by
  induction ls with
  | nil => intro i; rfl
  | cons l ls ih =>
    intro i
    simp [layerEntriesFrom, layerValues, ih (i + 1)]

theorem readLayers_layerValues (ls : List Linear) (rest : List Tensor) :
    readLayers ls.length (layerValues ls ++ rest) = some (ls, rest) := by
  induction ls with
  | nil => rfl
  | cons l ls ih => simp [layerValues, readLayers, ih]

/-- What the save filter leaves of a hybrid model's state dictionary: exactly
the model's own entries, in order, with every `_trained_model` entry gone. -/
theorem savedStateDict_hybrid (m : HybridPretrainedModel) :
    m.save_model_payload.state_dict =
      [("embeddings.0.weight", Tensor.mat m.embeddings_0_weight),
       ("embeddings.1.weight", Tensor.mat m.embeddings_1_weight)] ++
      (match m.metadata_layers with
        | some ls => layerEntriesFrom "metadata_layer_" 0 ls
        | none => []) ++
      layerEntriesFrom "combined_layer_" 0 m.combined_layers := by
  have eA : containsTrainedModel "embeddings.0.weight" = false := by decide
  have eB : containsTrainedModel "embeddings.1.weight" = false := by decide
  have hfm : ∀ ls : List Linear, ∀ i,
      (layerEntriesFrom "metadata_layer_" i ls).filter
        (fun kv => !(containsTrainedModel kv.1)) =
        layerEntriesFrom "metadata_layer_" i ls :=
    fun ls => filter_layerEntriesFrom _ ls metaKeys_not_trained
  have hfc : ∀ ls : List Linear, ∀ i,
      (layerEntriesFrom "combined_layer_" i ls).filter
        (fun kv => !(containsTrainedModel kv.1)) =
        layerEntriesFrom "combined_layer_" i ls :=
    fun ls => filter_layerEntriesFrom _ ls combKeys_not_trained
  rcases hm : m.trained_model with _ | p <;>
    rcases hl : m.metadata_layers with _ | ls <;>
      simp [HybridPretrainedModel.save_model_payload, savedStateDict,
        hybridStateDict, hm, hl, List.filter_append, List.filter_cons,
        filter_mfEntries, hfm, hfc, eA, eB]

/-- The saved keys are exactly the parameter names the rebuilt architecture
expects, provided layer counts match the recorded dimensions. -/
theorem expectedKeys_of_wellFormed (m : HybridPretrainedModel)
    (hw : WellFormed m) :
    m.save_model_payload.state_dict.map Prod.fst = expectedKeys m.hparams := by
  obtain ⟨h1, h2⟩ := hw
  rw [savedStateDict_hybrid]
  rcases hl : m.metadata_layers with _ | ls <;>
    rcases hd : m.hparams.metadata_layers_dims with _ | ds <;>
      rw [hl, hd] at h1 <;> simp at h1
  · simp [expectedKeys, List.map_append, layerEntriesFrom_keys, hd, h2]
  · simp [expectedKeys, List.map_append, layerEntriesFrom_keys, hd, h1, h2]

/-- The saved values, in order. -/
theorem values_of_hybrid (m : HybridPretrainedModel) :
    m.save_model_payload.state_dict.map Prod.snd =
      Tensor.mat m.embeddings_0_weight :: Tensor.mat m.embeddings_1_weight ::
      ((match m.metadata_layers with
        | some ls => layerValues ls
        | none => []) ++ layerValues m.combined_layers) := by
  rw [savedStateDict_hybrid]
  rcases hl : m.metadata_layers with _ | ls <;>
    simp [List.map_append, layerEntriesFrom_values, hl]

/-- Concrete `MatrixFactorizationModel` parameters registered as the
`_trained_model` submodule of the example hybrid model. -/
def exampleMF : MFParams :=
  { user_biases := [[0], [0]]
    user_embeddings := [[1], [2]]
    item_biases := [[0], [0]]
    item_embeddings := [[3], [4]] }

/-- A concrete, well-formed `HybridPretrainedModel` with one metadata layer
and two combined layers, still holding its `_trained_model` submodule. -/
def exampleHybrid : HybridPretrainedModel :=
  { hparams :=
      { user_num_embeddings := 2
        user_embeddings_dim := 1
        item_num_embeddings := 2
        item_embeddings_dim := 1
        metadata_layers_dims := some [1]
        combined_layers_dims := [2]
        item_metadata_num_cols := 1
        dropout_p := 0 }
    item_metadata := [[1], [2]]
    embeddings_0_weight := [[1], [2]]
    embeddings_1_weight := [[3], [4]]
    embeddings_0_requires_grad := true
    embeddings_1_requires_grad := true
    metadata_layers := some [{ weight := [[1]], bias := [0] }]
    combined_layers := [{ weight := [[1, 1, 1], [1, 0, 0]], bias := [0, 0] },
                        { weight := [[1, 1]], bias := [0] }]
    trained_model := some exampleMF }

/-- The model `load_model` reconstructs from a saved payload: the same model
with fresh (gradient-tracking) embedding tables and no registered source
submodule. -/
def reloaded (m : HybridPretrainedModel) : HybridPretrainedModel :=
  { m with
    embeddings_0_requires_grad := true
    embeddings_1_requires_grad := true
    trained_model := none }

/-- C4: saving a hybrid model and loading the persisted payload back yields a
model whose evaluation-mode forward scores equal the original's on every
`(users, items)` input. -/
theorem save_load_roundtrip (m : HybridPretrainedModel) (hw : WellFormed m)
    (users items : List ℕ) :
    ∃ m', load_model m.save_model_payload = some m' ∧
      m'.forward users items = m.forward users items := by
  refine ⟨reloaded m, ?_, rfl⟩
  have hk : m.save_model_payload.state_dict.map Prod.fst =
      expectedKeys m.save_model_payload.hparams :=
    expectedKeys_of_wellFormed m hw
  have hv := values_of_hybrid m
  obtain ⟨h1, h2⟩ := hw
  unfold load_model
  rw [if_pos hk, hv]
  rcases hl : m.metadata_layers with _ | ls <;>
    rcases hd : m.hparams.metadata_layers_dims with _ | ds <;>
      rw [hl, hd] at h1 <;> simp at h1
  · have hr1 : readLayers 0 (layerValues m.combined_layers) =
        some ([], layerValues m.combined_layers) := rfl
    have hr2 : readLayers (m.hparams.combined_layers_dims.length + 1)
        (layerValues m.combined_layers ++ []) =
        some (m.combined_layers, []) := by
      rw [← h2]
      exact readLayers_layerValues m.combined_layers []
    rw [List.append_nil] at hr2
    simp [HybridPretrainedModel.save_model_payload, hl, hd, hr1, hr2, reloaded]
  · have hr1 : readLayers ds.length
        (layerValues ls ++ layerValues m.combined_layers) =
        some (ls, layerValues m.combined_layers) := by
      rw [← h1]
      exact readLayers_layerValues ls (layerValues m.combined_layers)
    have hr2 : readLayers (m.hparams.combined_layers_dims.length + 1)
        (layerValues m.combined_layers ++ []) =
        some (m.combined_layers, []) := by
      rw [← h2]
      exact readLayers_layerValues m.combined_layers []
    rw [List.append_nil] at hr2
    simp [HybridPretrainedModel.save_model_payload, hl, hd, hr1, hr2, reloaded]

/-- C4 witness: concrete save-then-load round trip on `exampleHybrid`. -/
theorem save_load_roundtrip_witness :
    WellFormed exampleHybrid ∧
    ∃ m', load_model exampleHybrid.save_model_payload = some m' ∧
      m'.forward [0] [1] = exampleHybrid.forward [0] [1] :=
  ⟨by decide, save_load_roundtrip exampleHybrid (by decide) [0] [1]⟩

/-- C7: the parameter-state mapping written by `save_model` contains no entry
whose name contains `_trained_model`, every entry of the registered source
submodule is absent from it, and the persisted files are independent of the
source-model reference altogether. -/
theorem save_excludes_trained_model (m : HybridPretrainedModel) :
    (∀ kv ∈ m.save_model_payload.state_dict,
      containsTrainedModel kv.1 = false) ∧
    (∀ p, m.trained_model = some p →
      ∀ kv ∈ mfEntries p,
        kv.1 ∉ m.save_model_payload.state_dict.map Prod.fst) ∧
    m.save_model_payload =
      ({ m with trained_model := none }).save_model_payload := by
  have hmem : ∀ kv ∈ m.save_model_payload.state_dict,
      containsTrainedModel kv.1 = false := by
    intro kv hkv
    simp only [HybridPretrainedModel.save_model_payload, savedStateDict] at hkv
    have h := List.of_mem_filter hkv
    simpa using h
  refine ⟨hmem, ?_, ?_⟩
  · intro p hp kv hkv hin
    obtain ⟨kv', hkv', hfst⟩ := List.mem_map.mp hin
    have h1 := hmem kv' hkv'
    rw [hfst] at h1
    simp only [mfEntries, List.mem_cons, List.not_mem_nil, or_false] at hkv
    rcases hkv with rfl | rfl | rfl | rfl
    · exact absurd (show containsTrainedModel
        "_trained_model.user_biases.weight" = false from h1) (by decide)
    · exact absurd (show containsTrainedModel
        "_trained_model.user_embeddings.weight" = false from h1) (by decide)
    · exact absurd (show containsTrainedModel
        "_trained_model.item_biases.weight" = false from h1) (by decide)
    · exact absurd (show containsTrainedModel
        "_trained_model.item_embeddings.weight" = false from h1) (by decide)
  · cases hm : m.trained_model with
    | none =>
      simp [HybridPretrainedModel.save_model_payload, hybridStateDict, hm]
    | some p =>
      simp [HybridPretrainedModel.save_model_payload, hybridStateDict, hm,
        savedStateDict, List.filter_append, filter_mfEntries]

/-- C7 witness: on the concrete model, the first source-submodule entry is
excluded from the saved mapping, and the payload equals the payload of the
same model with the source reference dropped. -/
theorem save_excludes_trained_model_witness :
    exampleHybrid.trained_model = some exampleMF ∧
    ("_trained_model.user_biases.weight", Tensor.mat exampleMF.user_biases) ∈
      mfEntries exampleMF ∧
    ("_trained_model.user_biases.weight",
      Tensor.mat exampleMF.user_biases).1 ∉
      exampleHybrid.save_model_payload.state_dict.map Prod.fst ∧
    exampleHybrid.save_model_payload =
      ({ exampleHybrid with trained_model := none }).save_model_payload :=
  ⟨rfl, List.mem_cons_self _ _,
    (save_excludes_trained_model exampleHybrid).2.1 exampleMF rfl _
      (List.mem_cons_self _ _),
    (save_excludes_trained_model exampleHybrid).2.2⟩

theorem mem_writeFile_self (files : List String) (name : String) :
    name ∈ writeFile files name := by
  unfold writeFile
  split
  · assumption
  · simp

theorem mem_writeFile_of_mem (files : List String) (name f : String)
    (h : f ∈ files) : f ∈ writeFile files name := by
  unfold writeFile
  split
  · exact h
  · simp [h]

/-- C8: calling `save_model` on a non-empty existing destination with
`overwrite = False` raises and writes nothing (the filesystem is returned
unchanged); otherwise it raises nothing and the destination ends up existing
and containing both `metadata.pkl` and `model.pth` (existing files are
overwritten in place, no name is removed). -/
theorem save_model_overwrite_contract (fs : FileSystem) (ov : Bool) :
    (fs.pathExists = true → fs.files ≠ [] → ov = false →
      save_model_fs fs ov =
        (fs, some "Data exists in path and overwrite is False.")) ∧
    (fs.pathExists = false ∨ fs.files = [] ∨ ov = true →
      (save_model_fs fs ov).2 = none ∧
      (save_model_fs fs ov).1.pathExists = true ∧
      "metadata.pkl" ∈ (save_model_fs fs ov).1.files ∧
      "model.pth" ∈ (save_model_fs fs ov).1.files ∧
      ∀ f ∈ fs.files, f ∈ (save_model_fs fs ov).1.files) := by
  constructor
  · intro h1 h2 h3
    have he : fs.files.isEmpty = false := by
      cases e : fs.files with
      | nil => exact absurd e h2
      | cons a l => rfl
    simp [save_model_fs, h1, h3, he]
  · intro h
    have hc : (fs.pathExists && !fs.files.isEmpty && !ov) = false := by
      rcases h with h | h | h <;> simp [h]
    simp only [save_model_fs, hc, Bool.false_eq_true, if_false]
    refine ⟨by trivial, by trivial, ?_, ?_, ?_⟩
    · exact mem_writeFile_of_mem _ _ _ (mem_writeFile_self _ _)
    · exact mem_writeFile_self _ _
    · intro f hf
      exact mem_writeFile_of_mem _ _ _ (mem_writeFile_of_mem _ _ _ hf)

/-- A destination directory that already holds a file. -/
def exampleFS : FileSystem := { pathExists := true, files := ["old.txt"] }

/-- C8 witness: with `overwrite = false` the populated destination is rejected
untouched; with `overwrite = true` both payload files get written. -/
theorem save_model_overwrite_contract_witness :
    (exampleFS.pathExists = true ∧ exampleFS.files ≠ [] ∧
      save_model_fs exampleFS false =
        (exampleFS, some "Data exists in path and overwrite is False.")) ∧
    ((save_model_fs exampleFS true).2 = none ∧
      "metadata.pkl" ∈ (save_model_fs exampleFS true).1.files ∧
      "model.pth" ∈ (save_model_fs exampleFS true).1.files) :=
  ⟨⟨rfl, by decide,
      (save_model_overwrite_contract exampleFS false).1 rfl (by decide) rfl⟩,
    ⟨((save_model_overwrite_contract exampleFS true).2 (Or.inr (Or.inr rfl))).1,
     ((save_model_overwrite_contract exampleFS true).2
        (Or.inr (Or.inr rfl))).2.2.1,
     ((save_model_overwrite_contract exampleFS true).2
        (Or.inr (Or.inr rfl))).2.2.2.1⟩⟩

/-- C9: the method `freeze_embeddings` clears the gradient-tracking flag on
both borrowed
embedding tables, `unfreeze_embeddings` sets it on both, freezing then
unfreezing restores both flags to `true`, and neither operation changes any
other field of the model (in particular no parameter value and no other
parameter's state). -/
theorem freeze_unfreeze_embeddings (m : HybridPretrainedModel) :
    m.freeze_embeddings.embeddings_0_requires_grad = false ∧
    m.freeze_embeddings.embeddings_1_requires_grad = false ∧
    m.unfreeze_embeddings.embeddings_0_requires_grad = true ∧
    m.unfreeze_embeddings.embeddings_1_requires_grad = true ∧
    m.freeze_embeddings.unfreeze_embeddings.embeddings_0_requires_grad = true ∧
    m.freeze_embeddings.unfreeze_embeddings.embeddings_1_requires_grad = true ∧
    m.freeze_embeddings.embeddings_0_weight = m.embeddings_0_weight ∧
    m.freeze_embeddings.embeddings_1_weight = m.embeddings_1_weight ∧
    m.freeze_embeddings.metadata_layers = m.metadata_layers ∧
    m.freeze_embeddings.combined_layers = m.combined_layers ∧
    m.freeze_embeddings.item_metadata = m.item_metadata ∧
    m.freeze_embeddings.hparams = m.hparams ∧
    m.freeze_embeddings.trained_model = m.trained_model ∧
    m.unfreeze_embeddings.embeddings_0_weight = m.embeddings_0_weight ∧
    m.unfreeze_embeddings.embeddings_1_weight = m.embeddings_1_weight ∧
    m.unfreeze_embeddings.metadata_layers = m.metadata_layers ∧
    m.unfreeze_embeddings.combined_layers = m.combined_layers ∧
    m.unfreeze_embeddings.item_metadata = m.item_metadata ∧
    m.unfreeze_embeddings.hparams = m.hparams ∧
    m.unfreeze_embeddings.trained_model = m.trained_model :=
  ⟨rfl, rfl, rfl, rfl, rfl, rfl, rfl, rfl, rfl, rfl, rfl, rfl, rfl, rfl, rfl,
    rfl, rfl, rfl, rfl, rfl⟩

end Collie
